import Mathlib

/-
  Verification development for the ontc repository: an in-memory ontology
  store (lib/ontg/onto.c), an AST builder (lib/oxpl/ast.c), built-in
  functions (lib/oxpl/builtin.c) and a tree-walking executor (src/exec.c).

  The C code is embedded shallowly:
  * a resource pointer becomes a `Resource` value (allocation id + name);
    pointer identity is equality of these values;
  * the singly linked resource and fact lists become Lean lists in
    insertion order;
  * the left-child/right-sibling AST becomes the inductive `Ast`, with an
    explicit `null` constructor for NULL pointers;
  * console output becomes a list of events (`Ev.out` for program output,
    `Ev.diag` for error/warning messages); a read through a NULL pointer,
    which is undefined behaviour in C, is marked by the event `Ev.undef`
    or by the query outcome `QueryOut.nullDeref`;
  * the unbounded recursion of `execute_function` is cut off by fuel.
-/

set_option maxRecDepth 4000

namespace Ontc

/-- An ontology resource (struct ontology_resource): an allocation,
identified by an allocation id, carrying its name string.  Two distinct
allocations may carry the same name; equality of `Resource` values models
pointer equality in the C code. -/
structure Resource where
  id : Nat
  name : String
deriving DecidableEq

/-- An ontology fact (struct ontology_fact): a predicate resource and the
ordered argument list (the argument linked list, by reference). -/
structure Fact where
  predicate : Resource
  args : List Resource
deriving DecidableEq

/-- An ontology database (struct ontology_database): the insertion-ordered
resource list and the insertion-ordered fact list. -/
structure DB where
  resources : List Resource
  facts : List Fact
deriving DecidableEq

/-- The scan loop of `ontology_find_resource`: walk the resource list and
return the first resource whose name compares equal (strcmp) to `nm`. -/
def find_res_scan : List Resource → String → Option Resource
  | [], _ => none
  | r :: rest, nm => if r.name = nm then some r else find_res_scan rest nm

/-- `ontology_find_resource(db, name)` (onto.c): NULL database or NULL name
returns NULL without scanning; otherwise a linear scan by name equality.
`none` for the database or the name models a NULL pointer. -/
def ontology_find_resource (db? : Option DB) (nm? : Option String) : Option Resource :=
  match db?, nm? with
  | some db, some nm => find_res_scan db.resources nm
  | _, _ => none

/-- `ontology_check_fact_args` (onto.c): advance both argument lists while
the entries are pointer-equal; the result is 0 iff both lists are exhausted
together (the final `argcur == kbargcur` pointer comparison can only
succeed on NULL/NULL once a mismatch broke the loop). -/
def ontology_check_fact_args : List Resource → List Resource → Nat
  | a :: as₁, b :: bs => if a = b then ontology_check_fact_args as₁ bs else 1
  | [], [] => 0
  | _, _ => 1

/-- The fact-list scan of `ontology_check_fact`: skip facts whose predicate
is not pointer-equal, otherwise compare argument lists; 0 = present. -/
def check_fact_scan : List Fact → Fact → Nat
  | [], _ => 1
  | kb :: rest, f =>
    if kb.predicate ≠ f.predicate then check_fact_scan rest f
    else if ontology_check_fact_args f.args kb.args = 0 then 0
    else check_fact_scan rest f

/-- `ontology_check_fact(db, fact)` (onto.c): 0 if an exactly matching
stored fact exists, 1 otherwise. -/
def ontology_check_fact (db : DB) (f : Fact) : Nat :=
  check_fact_scan db.facts f

/-- Outcome of `ontology_query_triple`:
* `nullDb` — db was NULL, NULL returned silently;
* `invalidQuery` — subject and object both non-NULL, "no query goal"
  printed and NULL returned;
* `nullDeref` — the scan read `kbsbj->next` with `kbsbj == NULL`
  (a matching stored fact had an empty argument list): undefined behaviour;
* `ok l` — the collected result list, in fact insertion order. -/
inductive QueryOut where
  | nullDb
  | invalidQuery
  | nullDeref
  | ok (l : List Resource)
deriving DecidableEq

/-- One iteration of the `ontology_query_triple` scan over a stored fact
`f` (onto.c lines 393-421).  `rel?`, `s?`, `o?` are the (nullable) rel,
sbj and obj pointers.  `.error` marks the dereference of `kbsbj->next`
when the matching fact has no arguments; `.ok (some r)` appends `r` to the
result list; `.ok none` leaves the result unchanged. -/
def tripleStep (rel? s? o? : Option Resource) (f : Fact) : Except Unit (Option Resource) :=
  if rel? = some f.predicate then
    match s?, o?, f.args with
    | none, _, [] => .error ()
    | none, _, [_] => .ok none
    | none, oo, a :: b :: _ => if oo = some b then .ok (some a) else .ok none
    | some _, some _, _ => .ok none
    | some _, none, [] => .error ()
    | some _, none, [_] => .ok none
    | some s, none, a :: b :: _ => if a = s then .ok (some b) else .ok none
  else .ok none

/-- The while loop of `ontology_query_triple`: fold `tripleStep` over the
stored facts, collecting yielded resources in insertion order. -/
def queryScan (rel? s? o? : Option Resource) : List Fact → Except Unit (List Resource)
  | [] => .ok []
  | f :: rest =>
    match tripleStep rel? s? o? f with
    | .error _ => .error ()
    | .ok none => queryScan rel? s? o? rest
    | .ok (some r) =>
      match queryScan rel? s? o? rest with
      | .error _ => .error ()
      | .ok l => .ok (r :: l)

/-- `ontology_query_triple(db, rel, sbj, obj)` (onto.c): NULL db returns
NULL; subject and object both non-NULL is rejected ("no query goal");
otherwise the fact list is scanned. -/
def ontology_query_triple (db? : Option DB) (rel? s? o? : Option Resource) : QueryOut :=
  match db? with
  | none => .nullDb
  | some db =>
    if s?.isSome ∧ o?.isSome then .invalidQuery
    else
      match queryScan rel? s? o? db.facts with
      | .error _ => .nullDeref
      | .ok l => .ok l

/-- The contribution of a stored fact to a subject-anchored query
(`sbj = s`, `obj = NULL`): facts whose predicate matches and whose first
argument is `s` yield their second argument; facts with fewer than two
arguments yield nothing. -/
def sbjAnchored (rel? : Option Resource) (s : Resource) (f : Fact) : Option Resource :=
  match f.args with
  | a :: b :: _ => if rel? = some f.predicate ∧ a = s then some b else none
  | _ => none

/-- The contribution of a stored fact to an object-anchored query
(`sbj = NULL`, `obj = o`): facts whose predicate matches and whose second
argument is `o` yield their first argument. -/
def objAnchored (rel? : Option Resource) (o : Resource) (f : Fact) : Option Resource :=
  match f.args with
  | a :: b :: _ => if rel? = some f.predicate ∧ b = o then some a else none
  | _ => none

/-- `ontology_create_fact(db, predicate)` (onto.c): fails (NULL) unless the
predicate is pointer-present in the database resource list; otherwise a
fresh fact with an empty argument list. -/
def ontology_create_fact (rs : List Resource) (p : Resource) : Option Fact :=
  if p ∈ rs then some ⟨p, []⟩ else none

/-- `ontology_add_argument_to_fact(db, fact, argument)` (onto.c): no-op
(with a diagnostic) unless the argument is pointer-present in the database
resource list; otherwise append it to the fact argument list. -/
def ontology_add_argument_to_fact (rs : List Resource) (f : Fact) (a : Resource) : Fact :=
  if a ∈ rs then ⟨f.predicate, f.args ++ [a]⟩ else f

/-- One call of the knowledge-base mutation API, for the referential
integrity invariant.  Facts live in an allocation list (`heap` of
`OState`) and are referred to by their allocation index, which models the
fact pointer: `ontology_add_argument_to_fact` may mutate a fact that was
already added to the database. -/
inductive OCmd where
  | addResource (r : Resource)
  | createFact (p : Resource)
  | addArgument (fid : Nat) (a : Resource)
  | addFact (fid : Nat)

/-- The mutable state of one database session: the database resource list,
the list of all facts allocated by `ontology_create_fact` (indexed by
allocation id), and the database fact collection as allocation ids. -/
structure OState where
  resources : List Resource
  heap : List Fact
  dbFacts : List Nat
deriving DecidableEq

/-- One API call, mirroring onto.c:
* `addResource` appends to the resource list (`ontology_add_resource`);
* `createFact` allocates a fact iff the predicate is present
  (`ontology_create_fact`); a rejected call allocates nothing;
* `addArgument` appends to the fact argument list iff the argument is
  present (`ontology_add_argument_to_fact`); an unknown argument or an
  invalid fact id (a NULL fact pointer) leaves the state unchanged;
* `addFact` appends the fact id to the database fact collection
  (`ontology_add_fact`); a NULL fact (invalid id) is rejected by its
  NULL check. -/
def OState.step (s : OState) : OCmd → OState
  | .addResource r => { s with resources := s.resources ++ [r] }
  | .createFact p =>
    match ontology_create_fact s.resources p with
    | some f => { s with heap := s.heap ++ [f] }
    | none => s
  | .addArgument fid a =>
    match s.heap.get? fid with
    | some f => { s with heap := s.heap.set fid (ontology_add_argument_to_fact s.resources f a) }
    | none => s
  | .addFact fid => if fid < s.heap.length then { s with dbFacts := s.dbFacts ++ [fid] } else s

/-- Run a call sequence against a fresh database
(`ontology_create_database`). -/
def runCmds (cmds : List OCmd) : OState :=
  cmds.foldl OState.step ⟨[], [], []⟩

/-- Every allocated fact references only registered resources. -/
def stateOk (s : OState) : Prop :=
  ∀ f ∈ s.heap, f.predicate ∈ s.resources ∧ ∀ a ∈ f.args, a ∈ s.resources

/-- AST node kinds (enum ast_node_type, include/oxpl/ast.h). -/
inductive ANT where
  | undefined | transunit | int | float | str | scope | seq | cmpd | addr
  | call | inc | badd | bsub | mul | div | mod | assign | eq | neq
  | land | lor | band | bor | xor | lt | gt | leq | geq | shiftl
  | postinc | postdec | preinc | predec | negsign | shiftr
  | func | sig | sigvar | fact | tfact | cond | ctern | ret | cont | brk
  | whil | forl | vardecl | cls | cspec
deriving DecidableEq

/-- A left-child/right-sibling AST node (struct ast_node).  `null` models a
NULL node pointer.  `sval` is the string payload of an `ANT.str` node
(struct ast_node_str) and `ival` the integer payload of an `ANT.int` node;
both are irrelevant for other kinds. -/
inductive Ast where
  | null : Ast
  | mk (ty : ANT) (sval : String) (ival : Int) (child : Ast) (sibling : Ast)
deriving DecidableEq

/-- Node kind tag; reading it from `null` would be a NULL dereference in C
and is never done by the definitions below without a preceding NULL check
in the source. -/
def Ast.ty : Ast → ANT
  | .null => ANT.undefined
  | .mk t _ _ _ _ => t

/-- String payload. -/
def Ast.sval : Ast → String
  | .null => ""
  | .mk _ s _ _ _ => s

/-- First child. -/
def Ast.child : Ast → Ast
  | .null => .null
  | .mk _ _ _ c _ => c

/-- Next sibling. -/
def Ast.sibling : Ast → Ast
  | .null => .null
  | .mk _ _ _ _ s => s

/-- Number of nodes in a sibling chain. -/
def chainLength : Ast → Nat
  | .null => 0
  | .mk _ _ _ _ sib => 1 + chainLength sib

/-- Number of nodes in the child chain of a node: the sibling chain hanging
off its child pointer. -/
def childChainLength : Ast → Nat
  | .null => 0
  | .mk _ _ _ c _ => chainLength c

/-- `ast_new_func(sig, block)` (ast.c): a fresh ANT_FUNC node;
`AST_NODE_CHLD1(node) = sig` and `AST_NODE_CHLD2(node) = block` make `sig`
the first child and overwrite the sibling pointer of `sig` with `block`
(NULL if the function is a declaration only).  A NULL `sig` would make
`AST_NODE_CHLD2` write through a NULL pointer, hence `none`. -/
def ast_new_func (sig block : Ast) : Option Ast :=
  match sig with
  | .null => none
  | .mk t sv iv c _ => some (.mk ANT.func "" 0 (.mk t sv iv c block) .null)

/-- The warning text of ast_new_unop (format string with the operator). -/
def msgUndefUnop (oper : String) : String :=
  "[A] Warning: UNDEF UNOP " ++ oper

/-- Observable events: `out` is program output written by a built-in or by
the proof-of-concept hook, `diag` an error or warning message, `undef` a
read through a NULL pointer (undefined behaviour in the C source). -/
inductive Ev where
  | out (s : String)
  | diag (s : String)
  | undef
deriving DecidableEq

/-- `ast_new_unop(affix, oper, operand)` (ast.c): affix outside {0, 1} is
rejected with NULL (no message); otherwise a node, initialised to
ANT_UNDEFINED, is retagged for "++", "--" and "-", a warning is printed if
the tag is still ANT_UNDEFINED, and the operand becomes the first child.
The result pairs the returned node with the emitted messages. -/
def ast_new_unop (affix : Int) (oper : String) (operand : Ast) : Option Ast × List Ev :=
  if ¬(affix = 0 ∨ affix = 1) then (none, [])
  else
    let ty :=
      if oper = "++" then (if affix = 0 then ANT.preinc else ANT.postinc)
      else if oper = "--" then (if affix = 0 then ANT.predec else ANT.postdec)
      else if oper = "-" then ANT.negsign
      else ANT.undefined
    (some (.mk ty "" 0 operand .null),
     if ty = ANT.undefined then [Ev.diag (msgUndefUnop oper)] else [])

/-- Diagnostic texts of the embedded functions. -/
def msgPredMissing : String :=
  "Error: predicate being added to fact is not present in resource list"

/-- "unknown function" diagnostic of execute_call (printed to stdout). -/
def msgUnknownFn : String := "[E] unknown function..."

/-- print/println: NULL argument list. -/
def msgPrintMissing : String := "Error: print: argument missing"

/-- print/println: argument is not a string node. -/
def msgPrintWrongType : String := "Error: print: wrong type of argument"

/-- print/println: more than one argument. -/
def msgPrintTooMany : String := "Error: print: too many arguments"

/-- Output of the fact-gated proof-of-concept hook. -/
def msgOxpl : String := "OXPL rocks!\n"

/-- `lang_builtin_fn_print(args)` (builtin.c): exactly one argument of
string kind is required; otherwise a diagnostic and no output. -/
def lang_builtin_fn_print : Ast → List Ev
  | .null => [Ev.diag msgPrintMissing]
  | .mk t sv _ _ sib =>
    if t ≠ ANT.str then [Ev.diag msgPrintWrongType]
    else if sib ≠ Ast.null then [Ev.diag msgPrintTooMany]
    else [Ev.out sv]

/-- `lang_builtin_fn_println(args)` (builtin.c): like print with a trailing
newline. -/
def lang_builtin_fn_println : Ast → List Ev
  | .null => [Ev.diag msgPrintMissing]
  | .mk t sv _ _ sib =>
    if t ≠ ANT.str then [Ev.diag msgPrintWrongType]
    else if sib ≠ Ast.null then [Ev.diag msgPrintTooMany]
    else [Ev.out (sv ++ "\n")]

/-- `execute_call(call_node)` (exec.c): dispatch a call node.  Only a
callee that is an ANT_SCOPE over a single ANT_STR segment is considered;
`print` and `println` are dispatched, any other single-segment name gets
the "unknown function" diagnostic, and every other callee shape falls
through silently.  A call node with a NULL child would dereference NULL
when reading `call_expr->sibling`. -/
def execute_call (callNode : Ast) : List Ev :=
  match callNode with
  | .null => []
  | .mk t _ _ child _ =>
    if t ≠ ANT.call then []
    else
      match child with
      | .null => [Ev.undef]
      | .mk ct _ _ cchild csib =>
        if ct = ANT.scope then
          match cchild with
          | .null => []
          | .mk it isv _ _ isib =>
            if it = ANT.str ∧ isib = Ast.null then
              if isv = "print" then lang_builtin_fn_print csib
              else if isv = "println" then lang_builtin_fn_println csib
              else [Ev.diag msgUnknownFn]
            else []
        else []

/-- The function-body loop of `execute_function`: walk the sibling chain
after the signature and dispatch every ANT_CALL node; other node kinds are
ignored. -/
def exec_chain : Ast → List Ev
  | .null => []
  | .mk t sv iv c sib =>
    (if t = ANT.call then execute_call (.mk t sv iv c sib) else []) ++ exec_chain sib

/-- The scan loop of `get_fn`: find the first top-level ANT_FUNC node whose
signature identifier (child of the child) is a string equal to `nm`.  The
C loop dereferences `cur->child->child` without NULL checks; a NULL there
cannot arise for builder-produced function nodes and is modelled as a
skip. -/
def fn_scan (nm : String) : Ast → Ast
  | .null => .null
  | .mk t sv iv child sib =>
    if t = ANT.func then
      match child with
      | .null => fn_scan nm sib
      | .mk _ _ _ ident _ =>
        match ident with
        | .null => fn_scan nm sib
        | .mk it isv _ _ _ =>
          if it = ANT.str ∧ isv = nm then .mk t sv iv child sib else fn_scan nm sib
    else fn_scan nm sib

/-- `get_fn(ast, name)` (exec.c): NULL for a NULL root, otherwise scan the
top-level sibling chain. -/
def get_fn (ast : Ast) (nm : String) : Ast :=
  match ast with
  | .null => .null
  | .mk _ _ _ child _ => fn_scan nm child

/-- The proof-of-concept hook of `execute_function` (exec.c lines 246-259),
given that the resource `printsATestMessageWhenCalled` resolved to `rp`:
build the throwaway fact "`rp`(function)" — with a diagnostic and no
argument if the function name did not resolve — and print the test message
iff that exact fact is stored. -/
def poc_trace (kb : DB) (rp : Resource) (sbj? : Option Resource) : List Ev :=
  (match sbj? with
   | none => [Ev.diag msgPredMissing]
   | some s => if s ∈ kb.resources then [] else [Ev.diag msgPredMissing]) ++
  (let fargs : List Resource :=
    match sbj? with
    | none => []
    | some s => if s ∈ kb.resources then [s] else []
   if ontology_check_fact kb ⟨rp, fargs⟩ = 0 then [Ev.out msgOxpl] else [])

/-- `execute_function(fn_node, kb, root)` (exec.c lines 233-289), with fuel
bounding the recursion depth (the C source has no cycle guard).  A NULL or
non-ANT_FUNC node returns immediately with no events.  Otherwise the
signature identifier is read (a NULL signature, NULL identifier or
non-string identifier would be a NULL dereference or a type-confused
read), the proof-of-concept fact check runs, the knowledge base is queried
for `name isPreceededBy R` and each resulting `R` is executed recursively
via `get_fn` before the body chain runs.  If `printsATestMessageWhenCalled`
does not resolve, `ontology_create_fact` fails and the subsequent
`ontology_add_argument_to_fact`/`ontology_free_fact` calls dereference the
NULL fact. -/
def execute_function : Nat → DB → Ast → Ast → List Ev
  | 0, _, _, _ => []
  | fuel+1, kb, root, fn =>
    match fn with
    | .null => []
    | .mk t _ _ child _ =>
      if t ≠ ANT.func then []
      else
        match child with
        | .null => [Ev.undef]
        | .mk _ _ _ sigChild body =>
          match sigChild with
          | .null => [Ev.undef]
          | .mk sct nm _ _ _ =>
            if sct ≠ ANT.str then [Ev.undef]
            else
              let sbj? := ontology_find_resource (some kb) (some nm)
              match ontology_find_resource (some kb) (some "printsATestMessageWhenCalled") with
              | none =>
                Ev.diag msgPredMissing ::
                  (match sbj? with
                   | some _ => [Ev.undef]
                   | none => [Ev.diag msgPredMissing, Ev.undef])
              | some rp =>
                if rp ∈ kb.resources then
                  poc_trace kb rp sbj? ++
                  (match ontology_query_triple (some kb)
                          (ontology_find_resource (some kb) (some "isPreceededBy")) sbj? none with
                   | QueryOut.ok l =>
                     l.flatMap (fun r => execute_function fuel kb root (get_fn root r.name))
                   | QueryOut.nullDeref => [Ev.undef]
                   | _ => []) ++
                  exec_chain body
                else
                  Ev.diag msgPredMissing ::
                    (match sbj? with
                     | some _ => [Ev.undef]
                     | none => [Ev.diag msgPredMissing, Ev.undef])


/-- Knowledge base of the Scenario-B counterexample: the two built-in
predicate resources, `main` and `setup`, and the stored fact
isPreceededBy(main, setup) — as built by collect_facts for a program that
declares the fact but no `setup` function. -/
def exSetupKb : DB :=
  DB.mk [Resource.mk 0 "isPreceededBy", Resource.mk 1 "printsATestMessageWhenCalled",
         Resource.mk 2 "main", Resource.mk 3 "setup"]
    [Fact.mk (Resource.mk 0 "isPreceededBy") [Resource.mk 2 "main", Resource.mk 3 "setup"]]

/-- The `main` function node of that program: signature identifier "main",
body `print("hi");`. -/
def exMainFn : Ast :=
  Ast.mk ANT.func "" 0
    (Ast.mk ANT.sig "" 0 (Ast.mk ANT.str "main" 0 Ast.null Ast.null)
      (Ast.mk ANT.call "" 0
        (Ast.mk ANT.scope "" 0 (Ast.mk ANT.str "print" 0 Ast.null Ast.null)
          (Ast.mk ANT.str "hi" 0 Ast.null Ast.null))
        Ast.null))
    Ast.null

/-- Translation unit holding only `exMainFn`: no `setup` function
definition exists. -/
def exRoot : Ast := Ast.mk ANT.transunit "" 0 exMainFn Ast.null

/-- A knowledge base holding only the `printsATestMessageWhenCalled`
resource. -/
def exPmKb : DB := DB.mk [Resource.mk 0 "printsATestMessageWhenCalled"] []

/-- The Scenario-C function body
`print("hi"); println("there"); unknown_fn();` as a sibling chain of three
call nodes. -/
def scenarioBody : Ast :=
  Ast.mk ANT.call "" 0
    (Ast.mk ANT.scope "" 0 (Ast.mk ANT.str "print" 0 Ast.null Ast.null)
      (Ast.mk ANT.str "hi" 0 Ast.null Ast.null))
    (Ast.mk ANT.call "" 0
      (Ast.mk ANT.scope "" 0 (Ast.mk ANT.str "println" 0 Ast.null Ast.null)
        (Ast.mk ANT.str "there" 0 Ast.null Ast.null))
      (Ast.mk ANT.call "" 0
        (Ast.mk ANT.scope "" 0 (Ast.mk ANT.str "unknown_fn" 0 Ast.null Ast.null)
          Ast.null)
        Ast.null))

/-! ### Helper lemmas -/

theorem check_args_eq_zero_iff : ∀ xs ys : List Resource,
    ontology_check_fact_args xs ys = 0 ↔ xs = ys := by
  intro xs
  induction xs with
  | nil => intro ys; cases ys <;> simp [ontology_check_fact_args]
  | cons a as₁ ih =>
    intro ys
    cases ys with
    | nil => simp [ontology_check_fact_args]
    | cons b bs =>
      by_cases hab : a = b
      · simp [ontology_check_fact_args, hab, ih bs]
      · simp [ontology_check_fact_args, hab]

theorem check_fact_scan_eq_zero_iff (f : Fact) : ∀ fs : List Fact,
    check_fact_scan fs f = 0 ↔ ∃ kb ∈ fs, kb.predicate = f.predicate ∧ kb.args = f.args := by
  intro fs
  induction fs with
  | nil => simp [check_fact_scan]
  | cons kb rest ih =>
    simp only [check_fact_scan]
    split_ifs with hp ha
    · rw [ih]
      constructor
      · rintro ⟨g, hg, h1, h2⟩
        exact ⟨g, List.mem_cons_of_mem _ hg, h1, h2⟩
      · rintro ⟨g, hg, h1, h2⟩
        rcases List.mem_cons.mp hg with rfl | hg2
        · exact absurd h1 hp
        · exact ⟨g, hg2, h1, h2⟩
    · have harg : f.args = kb.args := (check_args_eq_zero_iff _ _).mp ha
      exact iff_of_true rfl ⟨kb, List.mem_cons_self _ _, not_not.mp hp, harg.symm⟩
    · rw [ih]
      constructor
      · rintro ⟨g, hg, h1, h2⟩
        exact ⟨g, List.mem_cons_of_mem _ hg, h1, h2⟩
      · rintro ⟨g, hg, h1, h2⟩
        rcases List.mem_cons.mp hg with rfl | hg2
        · exact absurd ((check_args_eq_zero_iff _ _).mpr h2.symm) ha
        · exact ⟨g, hg2, h1, h2⟩

theorem find_res_scan_eq_findq (nm : String) : ∀ rs : List Resource,
    find_res_scan rs nm = rs.find? (fun r => r.name == nm) := by
  intro rs
  induction rs with
  | nil => rfl
  | cons r rest ih =>
    by_cases h : r.name = nm
    · rw [List.find?_cons_of_pos _ (by simp [h])]
      simp [find_res_scan, h]
    · rw [List.find?_cons_of_neg _ (by simp [h])]
      simp [find_res_scan, h, ih]

theorem find_res_scan_mem (nm : String) : ∀ rs : List Resource, ∀ r : Resource,
    find_res_scan rs nm = some r → r ∈ rs := by
  intro rs
  induction rs with
  | nil => intro r h; simp [find_res_scan] at h
  | cons a rest ih =>
    intro r h
    by_cases ha : a.name = nm
    · simp only [find_res_scan, if_pos ha] at h
      injection h with h
      subst h
      exact List.mem_cons_self _ _
    · simp only [find_res_scan, if_neg ha] at h
      exact List.mem_cons_of_mem _ (ih r h)

theorem execute_function_null (fuel : Nat) (kb : DB) (root : Ast) :
    execute_function fuel kb root Ast.null = [] := by
  cases fuel with
  | zero => rfl
  | succ n => rfl

/-! ### Claim theorems -/

/-- Claim C2 (confirmed): `ontology_check_fact` reports "present" (0) if and
only if some stored fact has an identity-equal predicate and an argument
sequence that is pairwise identity-equal in order and equal in length; so a
permuted or lengthened/shortened variant of a stored fact is "absent" unless
that variant is itself stored. -/
theorem check_fact_exact_match (db : DB) (f : Fact) :
    ontology_check_fact db f = 0 ↔
      ∃ kb ∈ db.facts, kb.predicate = f.predicate ∧ kb.args = f.args :=
  check_fact_scan_eq_zero_iff f db.facts

/-- Claim C9 counterexample: a resource whose name is the empty string is
found by `ontology_find_resource` when queried with the (non-NULL) empty
name — the code only short-circuits on a NULL name pointer, so the claim
that an empty name returns "not found" without scanning is false. -/
theorem find_resource_empty_name_cex :
    ontology_find_resource (some (DB.mk [Resource.mk 0 ""] [])) (some "")
      = some (Resource.mk 0 "")
    ∧ ontology_find_resource (some (DB.mk [Resource.mk 0 ""] [])) (some "") ≠ none := by
  constructor
  · rfl
  · simp [ontology_find_resource, find_res_scan]

/-- Claim C9 (amended): `ontology_find_resource` is a linear scan by name
equality returning the first match; a NULL database or NULL name yields
"not found" without scanning.  An empty (non-NULL) name is not special:
the scan runs and can match a resource whose name is empty. -/
theorem find_resource_spec (db : DB) (nm : String) (nm? : Option String) :
    ontology_find_resource (some db) (some nm) = db.resources.find? (fun r => r.name == nm)
    ∧ ontology_find_resource none nm? = none
    ∧ ontology_find_resource (some db) none = none :=
  ⟨find_res_scan_eq_findq nm db.resources, rfl, rfl⟩

/-- Claim C7 counterexample: `ast_new_func` applied to a signature node and
an absent (NULL) body yields a node whose child chain has length 1, not 2 —
the absent body is simply a NULL sibling pointer, not a counted slot. -/
theorem ast_new_func_absent_body_cex :
    (ast_new_func (Ast.mk ANT.sig "" 0 Ast.null Ast.null) Ast.null).map childChainLength = some 1
    ∧ (ast_new_func (Ast.mk ANT.sig "" 0 Ast.null Ast.null) Ast.null).map childChainLength
        ≠ some 2 := by
  constructor
  · rfl
  · decide

/-- Claim C7 (amended): for every signature node, `ast_new_func(sig, block)`
yields a function node whose child chain is the signature followed by the
sibling chain of `block`: its length is `1 + chainLength block`, hence 1
when the body is absent and 2 exactly when the body is a single node. -/
theorem ast_new_func_chain_length (t : ANT) (sv : String) (iv : Int) (c oldSib block : Ast) :
    (ast_new_func (Ast.mk t sv iv c oldSib) block).map childChainLength
      = some (1 + chainLength block) := rfl

/-- Claim C10 (confirmed): `ast_new_unop` with a prefix/postfix flag of 0 or
1 and an operator other than "++", "--" and "-" does not fail: it returns a
freshly allocated node still tagged ANT_UNDEFINED, with the operand as its
first child, and emits exactly the UNDEF UNOP warning. -/
theorem ast_new_unop_unknown_oper (affix : Int) (oper : String) (operand : Ast)
    (h0 : affix = 0 ∨ affix = 1) (h1 : oper ≠ "++") (h2 : oper ≠ "--") (h3 : oper ≠ "-") :
    ast_new_unop affix oper operand
      = (some (Ast.mk ANT.undefined "" 0 operand Ast.null), [Ev.diag (msgUndefUnop oper)]) := by
  rcases h0 with rfl | rfl <;> simp [ast_new_unop, h1, h2, h3]

/-- Witness for `ast_new_unop_unknown_oper` at affix 0, operator "!". -/
theorem ast_new_unop_unknown_oper_witness :
    ast_new_unop 0 "!" Ast.null
      = (some (Ast.mk ANT.undefined "" 0 Ast.null Ast.null), [Ev.diag (msgUndefUnop "!")]) :=
  ast_new_unop_unknown_oper 0 "!" Ast.null (Or.inl rfl) (by decide) (by decide) (by decide)

theorem queryScan_some_none (rel? : Option Resource) (s : Resource) :
    ∀ fs : List Fact, (∀ f ∈ fs, rel? = some f.predicate → f.args ≠ []) →
    queryScan rel? (some s) none fs = Except.ok (fs.filterMap (sbjAnchored rel? s)) := by
  intro fs
  induction fs with
  | nil => intro _; rfl
  | cons f rest ih =>
    intro h
    have hrest := ih (fun g hg => h g (List.mem_cons_of_mem _ hg))
    by_cases hrel : rel? = some f.predicate
    · have hne : f.args ≠ [] := h f (List.mem_cons_self _ _) hrel
      cases hargs : f.args with
      | nil => exact absurd hargs hne
      | cons a t =>
        cases t with
        | nil =>
          have hstep : tripleStep rel? (some s) none f = .ok none := by
            simp [tripleStep, hrel, hargs]
          have hanch : sbjAnchored rel? s f = none := by
            simp [sbjAnchored, hargs]
          simp [queryScan, hstep, hrest, List.filterMap_cons, hanch]
        | cons b t2 =>
          by_cases has : a = s
          · have hstep : tripleStep rel? (some s) none f = .ok (some b) := by
              simp [tripleStep, hrel, hargs, has]
            have hanch : sbjAnchored rel? s f = some b := by
              simp [sbjAnchored, hargs, hrel, has]
            simp [queryScan, hstep, hrest, List.filterMap_cons, hanch]
          · have hstep : tripleStep rel? (some s) none f = .ok none := by
              simp [tripleStep, hrel, hargs, has]
            have hanch : sbjAnchored rel? s f = none := by
              simp [sbjAnchored, hargs, hrel, has]
            simp [queryScan, hstep, hrest, List.filterMap_cons, hanch]
    · have hstep : tripleStep rel? (some s) none f = .ok none := by
        simp [tripleStep, hrel]
      have hanch : sbjAnchored rel? s f = none := by
        cases hargs : f.args with
        | nil => simp [sbjAnchored, hargs]
        | cons a t =>
          cases t with
          | nil => simp [sbjAnchored, hargs]
          | cons b t2 => simp [sbjAnchored, hargs, hrel]
      simp [queryScan, hstep, hrest, List.filterMap_cons, hanch]

theorem queryScan_none_some (rel? : Option Resource) (o : Resource) :
    ∀ fs : List Fact, (∀ f ∈ fs, rel? = some f.predicate → f.args ≠ []) →
    queryScan rel? none (some o) fs = Except.ok (fs.filterMap (objAnchored rel? o)) := by
  intro fs
  induction fs with
  | nil => intro _; rfl
  | cons f rest ih =>
    intro h
    have hrest := ih (fun g hg => h g (List.mem_cons_of_mem _ hg))
    by_cases hrel : rel? = some f.predicate
    · have hne : f.args ≠ [] := h f (List.mem_cons_self _ _) hrel
      cases hargs : f.args with
      | nil => exact absurd hargs hne
      | cons a t =>
        cases t with
        | nil =>
          have hstep : tripleStep rel? none (some o) f = .ok none := by
            simp [tripleStep, hrel, hargs]
          have hanch : objAnchored rel? o f = none := by
            simp [objAnchored, hargs]
          simp [queryScan, hstep, hrest, List.filterMap_cons, hanch]
        | cons b t2 =>
          by_cases hbo : b = o
          · have hstep : tripleStep rel? none (some o) f = .ok (some a) := by
              simp [tripleStep, hrel, hargs, hbo]
            have hanch : objAnchored rel? o f = some a := by
              simp [objAnchored, hargs, hrel, hbo]
            simp [queryScan, hstep, hrest, List.filterMap_cons, hanch]
          · have hstep : tripleStep rel? none (some o) f = .ok none := by
              simp [tripleStep, hrel, hargs]
              intro hob
              exact absurd hob.symm hbo
            have hanch : objAnchored rel? o f = none := by
              simp [objAnchored, hargs, hrel, hbo]
            simp [queryScan, hstep, hrest, List.filterMap_cons, hanch]
    · have hstep : tripleStep rel? none (some o) f = .ok none := by
        simp [tripleStep, hrel]
      have hanch : objAnchored rel? o f = none := by
        cases hargs : f.args with
        | nil => simp [objAnchored, hargs]
        | cons a t =>
          cases t with
          | nil => simp [objAnchored, hargs]
          | cons b t2 => simp [objAnchored, hargs, hrel]
      simp [queryScan, hstep, hrest, List.filterMap_cons, hanch]

theorem queryScan_none_none (rel? : Option Resource) :
    ∀ fs : List Fact, (∀ f ∈ fs, rel? = some f.predicate → f.args ≠ []) →
    queryScan rel? none none fs = Except.ok [] := by
  intro fs
  induction fs with
  | nil => intro _; rfl
  | cons f rest ih =>
    intro h
    have hrest := ih (fun g hg => h g (List.mem_cons_of_mem _ hg))
    by_cases hrel : rel? = some f.predicate
    · have hne : f.args ≠ [] := h f (List.mem_cons_self _ _) hrel
      cases hargs : f.args with
      | nil => exact absurd hargs hne
      | cons a t =>
        cases t with
        | nil =>
          have hstep : tripleStep rel? none none f = .ok none := by
            simp [tripleStep, hrel, hargs]
          simp [queryScan, hstep, hrest]
        | cons b t2 =>
          have hstep : tripleStep rel? none none f = .ok none := by
            simp [tripleStep, hrel, hargs]
          simp [queryScan, hstep, hrest]
    · have hstep : tripleStep rel? none none f = .ok none := by
        simp [tripleStep, hrel]
      simp [queryScan, hstep, hrest]

theorem sbjAnchored_eq_some (rel? : Option Resource) (s O : Resource) (f : Fact) :
    sbjAnchored rel? s f = some O ↔
      rel? = some f.predicate ∧ ∃ rest, f.args = s :: O :: rest := by
  cases hargs : f.args with
  | nil => simp [sbjAnchored, hargs]
  | cons a t =>
    cases t with
    | nil => simp [sbjAnchored, hargs]
    | cons b t2 =>
      simp only [sbjAnchored, hargs]
      constructor
      · intro hsome
        by_cases hc : rel? = some f.predicate ∧ a = s
        · rw [if_pos hc] at hsome
          obtain ⟨h1, h2⟩ := hc
          injection hsome with h3
          exact ⟨h1, t2, by rw [h2, h3]⟩
        · rw [if_neg hc] at hsome
          exact absurd hsome (by simp)
      · rintro ⟨h1, rest, hargs2⟩
        injection hargs2 with ha htail
        injection htail with hb htail2
        subst ha
        subst hb
        simp [h1]

theorem objAnchored_eq_some (rel? : Option Resource) (o S : Resource) (f : Fact) :
    objAnchored rel? o f = some S ↔
      rel? = some f.predicate ∧ ∃ rest, f.args = S :: o :: rest := by
  cases hargs : f.args with
  | nil => simp [objAnchored, hargs]
  | cons a t =>
    cases t with
    | nil => simp [objAnchored, hargs]
    | cons b t2 =>
      simp only [objAnchored, hargs]
      constructor
      · intro hsome
        by_cases hc : rel? = some f.predicate ∧ b = o
        · rw [if_pos hc] at hsome
          obtain ⟨h1, h2⟩ := hc
          injection hsome with h3
          exact ⟨h1, t2, by rw [h2, h3]⟩
        · rw [if_neg hc] at hsome
          exact absurd hsome (by simp)
      · rintro ⟨h1, rest, hargs2⟩
        injection hargs2 with ha htail
        injection htail with hb htail2
        subst ha
        subst hb
        simp [h1]

theorem stateOk_step (s : OState) (c : OCmd) (h : stateOk s) : stateOk (s.step c) := by
  cases c with
  | addResource r =>
    intro f hf
    obtain ⟨h1, h2⟩ := h f hf
    exact ⟨List.mem_append_left _ h1, fun a ha => List.mem_append_left _ (h2 a ha)⟩
  | createFact p =>
    simp only [OState.step, ontology_create_fact]
    by_cases hp : p ∈ s.resources
    · rw [if_pos hp]
      intro f hf
      rcases List.mem_append.mp hf with hf1 | hf2
      · exact h f hf1
      · have : f = ⟨p, []⟩ := by simpa using hf2
        subst this
        exact ⟨hp, by simp⟩
    · rw [if_neg hp]
      exact h
  | addArgument fid a =>
    simp only [OState.step]
    cases hg : s.heap.get? fid with
    | none => exact h
    | some f0 =>
      intro f hf
      rcases List.mem_or_eq_of_mem_set hf with hf1 | hf2
      · exact h f hf1
      · subst hf2
        simp only [ontology_add_argument_to_fact]
        by_cases ha : a ∈ s.resources
        · rw [if_pos ha]
          obtain ⟨h1, h2⟩ := h f0 (List.get?_mem hg)
          refine ⟨h1, ?_⟩
          intro x hx
          rcases List.mem_append.mp hx with hx1 | hx2
          · exact h2 x hx1
          · have : x = a := by simpa using hx2
            subst this
            exact ha
        · rw [if_neg ha]
          exact h f0 (List.get?_mem hg)
  | addFact fid =>
    simp only [OState.step]
    by_cases hl : fid < s.heap.length
    · rw [if_pos hl]
      exact h
    · rw [if_neg hl]
      exact h

theorem stateOk_runCmds (cmds : List OCmd) : stateOk (runCmds cmds) := by
  have main : ∀ (cs : List OCmd) (s : OState), stateOk s → stateOk (cs.foldl OState.step s) := by
    intro cs
    induction cs with
    | nil => intro s hs; exact hs
    | cons c rest ih => intro s hs; exact ih _ (stateOk_step s c hs)
  exact main cmds ⟨[], [], []⟩ (by intro f hf; simp at hf)

/-- Claim C3 (confirmed): after any sequence of add_resource / create_fact /
add_argument_to_fact / add_fact calls against a fresh database — rejected
calls included — every fact in the database fact collection has its
predicate and all of its arguments present, by identity, in the database
resource collection. -/
theorem fact_referential_integrity (cmds : List OCmd) (fid : Nat) (f : Fact)
    (_hmem : fid ∈ (runCmds cmds).dbFacts) (hf : (runCmds cmds).heap.get? fid = some f) :
    f.predicate ∈ (runCmds cmds).resources ∧ ∀ a ∈ f.args, a ∈ (runCmds cmds).resources :=
  stateOk_runCmds cmds f (List.get?_mem hf)

/-- Witness for `fact_referential_integrity`: register "subclassOf", create a
fact over it and add the fact to the database. -/
theorem fact_referential_integrity_witness :
    (Fact.mk (Resource.mk 0 "subclassOf") []).predicate ∈
      (runCmds [OCmd.addResource (Resource.mk 0 "subclassOf"),
                OCmd.createFact (Resource.mk 0 "subclassOf"),
                OCmd.addFact 0]).resources
    ∧ ∀ a ∈ (Fact.mk (Resource.mk 0 "subclassOf") []).args,
        a ∈ (runCmds [OCmd.addResource (Resource.mk 0 "subclassOf"),
                      OCmd.createFact (Resource.mk 0 "subclassOf"),
                      OCmd.addFact 0]).resources :=
  fact_referential_integrity
    [OCmd.addResource (Resource.mk 0 "subclassOf"),
     OCmd.createFact (Resource.mk 0 "subclassOf"),
     OCmd.addFact 0]
    0 (Fact.mk (Resource.mk 0 "subclassOf") []) (by decide) (by decide)

/-- Claim C6 counterexample: a triple query with BOTH anchors null is not
rejected: on the empty database it returns the empty result, not the
InvalidQuery failure — the code only rejects the case where neither anchor
is null. -/
theorem query_triple_bothnull_cex :
    ontology_query_triple (some (DB.mk [] [])) none none none = QueryOut.ok []
    ∧ ontology_query_triple (some (DB.mk [] [])) none none none ≠ QueryOut.invalidQuery := by
  constructor
  · rfl
  · decide

/-- Claim C6 (amended): a triple query with two non-null anchors fails with
InvalidQuery before touching the fact list; a query with both anchors null
is NOT rejected — the scan runs (so the database is touched) and yields the
empty result, provided every stored fact whose predicate matches has a
nonempty argument list (an empty one would be the undefined NULL
dereference). -/
theorem query_triple_anchor_check (db : DB) (rel? : Option Resource) (s o : Resource)
    (h : ∀ f ∈ db.facts, rel? = some f.predicate → f.args ≠ []) :
    ontology_query_triple (some db) rel? (some s) (some o) = QueryOut.invalidQuery
    ∧ ontology_query_triple (some db) rel? none none = QueryOut.ok [] := by
  constructor
  · simp [ontology_query_triple]
  · simp [ontology_query_triple, queryScan_none_none rel? db.facts h]

/-- Witness for `query_triple_anchor_check` on the empty database. -/
theorem query_triple_anchor_check_witness :
    ontology_query_triple (some (DB.mk [] [])) none (some (Resource.mk 0 "a"))
      (some (Resource.mk 1 "b")) = QueryOut.invalidQuery
    ∧ ontology_query_triple (some (DB.mk [] [])) none none none = QueryOut.ok [] :=
  query_triple_anchor_check (DB.mk [] []) none (Resource.mk 0 "a") (Resource.mk 1 "b")
    (by decide)

/-- Claim C8 counterexample: a stored fact with an EMPTY argument list whose
predicate matches the queried relation makes the scan read the missing
first argument node (`kbsbj->next` with `kbsbj == NULL`): the
missing-argument branch of the embedding IS reachable. -/
theorem query_triple_zeroarg_deref_cex :
    ontology_query_triple
      (some (DB.mk [Resource.mk 0 "p", Resource.mk 1 "s"] [Fact.mk (Resource.mk 0 "p") []]))
      (some (Resource.mk 0 "p")) (some (Resource.mk 1 "s")) none = QueryOut.nullDeref := by
  rfl

/-- Claim C8 (amended): `ontology_query_triple` considers only stored facts
whose predicate is identity-equal to the relation and whose argument list
has at least two entries; a matching fact with exactly ONE argument is
skipped without touching a missing argument, but a matching fact with ZERO
arguments dereferences the missing first argument node — so the queries are
well defined only when no matching stored fact has an empty argument
list. -/
theorem query_triple_skips_short_facts (db : DB) (rel? : Option Resource) (s o : Resource)
    (h : ∀ f ∈ db.facts, rel? = some f.predicate → f.args ≠ []) :
    ontology_query_triple (some db) rel? (some s) none
      = QueryOut.ok (db.facts.filterMap (sbjAnchored rel? s))
    ∧ ontology_query_triple (some db) rel? none (some o)
      = QueryOut.ok (db.facts.filterMap (objAnchored rel? o))
    ∧ ∀ f : Fact, f.args.length ≤ 1 → sbjAnchored rel? s f = none ∧ objAnchored rel? o f = none := by
  refine ⟨?_, ?_, ?_⟩
  · simp [ontology_query_triple, queryScan_some_none rel? s db.facts h]
  · simp [ontology_query_triple, queryScan_none_some rel? o db.facts h]
  · intro f hlen
    cases hargs : f.args with
    | nil => simp [sbjAnchored, objAnchored, hargs]
    | cons a t =>
      cases t with
      | nil => simp [sbjAnchored, objAnchored, hargs]
      | cons b t2 => simp [hargs] at hlen

/-- Witness for `query_triple_skips_short_facts`: one stored one-argument
fact with a matching predicate; both query forms return the empty result. -/
theorem query_triple_skips_short_facts_witness :
    ontology_query_triple
      (some (DB.mk [Resource.mk 0 "p", Resource.mk 1 "q"] [Fact.mk (Resource.mk 0 "p") [Resource.mk 1 "q"]]))
      (some (Resource.mk 0 "p")) (some (Resource.mk 1 "q")) none
      = QueryOut.ok ((DB.mk [Resource.mk 0 "p", Resource.mk 1 "q"]
          [Fact.mk (Resource.mk 0 "p") [Resource.mk 1 "q"]]).facts.filterMap
            (sbjAnchored (some (Resource.mk 0 "p")) (Resource.mk 1 "q")))
    ∧ ontology_query_triple
        (some (DB.mk [Resource.mk 0 "p", Resource.mk 1 "q"] [Fact.mk (Resource.mk 0 "p") [Resource.mk 1 "q"]]))
        (some (Resource.mk 0 "p")) none (some (Resource.mk 1 "q"))
        = QueryOut.ok ((DB.mk [Resource.mk 0 "p", Resource.mk 1 "q"]
            [Fact.mk (Resource.mk 0 "p") [Resource.mk 1 "q"]]).facts.filterMap
              (objAnchored (some (Resource.mk 0 "p")) (Resource.mk 1 "q")))
    ∧ ∀ f : Fact, f.args.length ≤ 1 →
        sbjAnchored (some (Resource.mk 0 "p")) (Resource.mk 1 "q") f = none
        ∧ objAnchored (some (Resource.mk 0 "p")) (Resource.mk 1 "q") f = none :=
  query_triple_skips_short_facts
    (DB.mk [Resource.mk 0 "p", Resource.mk 1 "q"] [Fact.mk (Resource.mk 0 "p") [Resource.mk 1 "q"]])
    (some (Resource.mk 0 "p")) (Resource.mk 1 "q") (Resource.mk 1 "q") (by decide)

/-- Claim C1 counterexample: a stored fact rel(s, o, x) with THREE arguments
also answers the subject-anchored query — the result contains o although no
fact with the exact argument sequence [s, o] is stored, refuting the
claimed "if and only if a fact with argument sequence [S, O]". -/
theorem query_triple_extra_args_cex :
    ontology_query_triple
      (some (DB.mk [Resource.mk 0 "r", Resource.mk 1 "s", Resource.mk 2 "o", Resource.mk 3 "x"]
        [Fact.mk (Resource.mk 0 "r") [Resource.mk 1 "s", Resource.mk 2 "o", Resource.mk 3 "x"]]))
      (some (Resource.mk 0 "r")) (some (Resource.mk 1 "s")) none
      = QueryOut.ok [Resource.mk 2 "o"]
    ∧ ¬ ∃ f ∈ (DB.mk [Resource.mk 0 "r", Resource.mk 1 "s", Resource.mk 2 "o", Resource.mk 3 "x"]
        [Fact.mk (Resource.mk 0 "r") [Resource.mk 1 "s", Resource.mk 2 "o", Resource.mk 3 "x"]]).facts,
          f.predicate = Resource.mk 0 "r" ∧ f.args = [Resource.mk 1 "s", Resource.mk 2 "o"] := by
  constructor
  · rfl
  · decide

/-- Claim C1 (amended): provided no stored fact with matching predicate has
an empty argument list, `query_triple(db, rel, S, NULL)` returns, in fact
insertion order, the second argument of every stored fact whose predicate
is identity-equal to rel and whose argument list STARTS with S — so O is in
the result iff a fact with predicate rel and argument list S, O, ...
(possibly with further arguments) is stored; symmetrically the
object-anchored form returns first arguments of facts whose second argument
is O. -/
theorem query_triple_first_two_args (db : DB) (rel? : Option Resource) (S O : Resource)
    (h : ∀ f ∈ db.facts, rel? = some f.predicate → f.args ≠ []) :
    ontology_query_triple (some db) rel? (some S) none
      = QueryOut.ok (db.facts.filterMap (sbjAnchored rel? S))
    ∧ (O ∈ db.facts.filterMap (sbjAnchored rel? S) ↔
        ∃ f ∈ db.facts, rel? = some f.predicate ∧ ∃ rest, f.args = S :: O :: rest)
    ∧ ontology_query_triple (some db) rel? none (some O)
      = QueryOut.ok (db.facts.filterMap (objAnchored rel? O))
    ∧ (S ∈ db.facts.filterMap (objAnchored rel? O) ↔
        ∃ f ∈ db.facts, rel? = some f.predicate ∧ ∃ rest, f.args = S :: O :: rest) := by
  refine ⟨?_, ?_, ?_, ?_⟩
  · simp [ontology_query_triple, queryScan_some_none rel? S db.facts h]
  · simp only [List.mem_filterMap]
    constructor
    · rintro ⟨f, hf, hsome⟩
      exact ⟨f, hf, (sbjAnchored_eq_some rel? S O f).mp hsome⟩
    · rintro ⟨f, hf, hcond⟩
      exact ⟨f, hf, (sbjAnchored_eq_some rel? S O f).mpr hcond⟩
  · simp [ontology_query_triple, queryScan_none_some rel? O db.facts h]
  · simp only [List.mem_filterMap]
    constructor
    · rintro ⟨f, hf, hsome⟩
      exact ⟨f, hf, (objAnchored_eq_some rel? O S f).mp hsome⟩
    · rintro ⟨f, hf, hcond⟩
      exact ⟨f, hf, (objAnchored_eq_some rel? O S f).mpr hcond⟩

/-- Witness for `query_triple_first_two_args` on a database storing exactly
rel(s, o). -/
theorem query_triple_first_two_args_witness :
    ontology_query_triple
      (some (DB.mk [Resource.mk 0 "r", Resource.mk 1 "s", Resource.mk 2 "o"]
        [Fact.mk (Resource.mk 0 "r") [Resource.mk 1 "s", Resource.mk 2 "o"]]))
      (some (Resource.mk 0 "r")) (some (Resource.mk 1 "s")) none
      = QueryOut.ok ((DB.mk [Resource.mk 0 "r", Resource.mk 1 "s", Resource.mk 2 "o"]
          [Fact.mk (Resource.mk 0 "r") [Resource.mk 1 "s", Resource.mk 2 "o"]]).facts.filterMap
            (sbjAnchored (some (Resource.mk 0 "r")) (Resource.mk 1 "s")))
    ∧ (Resource.mk 2 "o" ∈ (DB.mk [Resource.mk 0 "r", Resource.mk 1 "s", Resource.mk 2 "o"]
        [Fact.mk (Resource.mk 0 "r") [Resource.mk 1 "s", Resource.mk 2 "o"]]).facts.filterMap
          (sbjAnchored (some (Resource.mk 0 "r")) (Resource.mk 1 "s")) ↔
        ∃ f ∈ (DB.mk [Resource.mk 0 "r", Resource.mk 1 "s", Resource.mk 2 "o"]
          [Fact.mk (Resource.mk 0 "r") [Resource.mk 1 "s", Resource.mk 2 "o"]]).facts,
            some (Resource.mk 0 "r") = some f.predicate
            ∧ ∃ rest, f.args = Resource.mk 1 "s" :: Resource.mk 2 "o" :: rest)
    ∧ ontology_query_triple
        (some (DB.mk [Resource.mk 0 "r", Resource.mk 1 "s", Resource.mk 2 "o"]
          [Fact.mk (Resource.mk 0 "r") [Resource.mk 1 "s", Resource.mk 2 "o"]]))
        (some (Resource.mk 0 "r")) none (some (Resource.mk 2 "o"))
        = QueryOut.ok ((DB.mk [Resource.mk 0 "r", Resource.mk 1 "s", Resource.mk 2 "o"]
            [Fact.mk (Resource.mk 0 "r") [Resource.mk 1 "s", Resource.mk 2 "o"]]).facts.filterMap
              (objAnchored (some (Resource.mk 0 "r")) (Resource.mk 2 "o")))
    ∧ (Resource.mk 1 "s" ∈ (DB.mk [Resource.mk 0 "r", Resource.mk 1 "s", Resource.mk 2 "o"]
        [Fact.mk (Resource.mk 0 "r") [Resource.mk 1 "s", Resource.mk 2 "o"]]).facts.filterMap
          (objAnchored (some (Resource.mk 0 "r")) (Resource.mk 2 "o")) ↔
        ∃ f ∈ (DB.mk [Resource.mk 0 "r", Resource.mk 1 "s", Resource.mk 2 "o"]
          [Fact.mk (Resource.mk 0 "r") [Resource.mk 1 "s", Resource.mk 2 "o"]]).facts,
            some (Resource.mk 0 "r") = some f.predicate
            ∧ ∃ rest, f.args = Resource.mk 1 "s" :: Resource.mk 2 "o" :: rest) :=
  query_triple_first_two_args
    (DB.mk [Resource.mk 0 "r", Resource.mk 1 "s", Resource.mk 2 "o"]
      [Fact.mk (Resource.mk 0 "r") [Resource.mk 1 "s", Resource.mk 2 "o"]])
    (some (Resource.mk 0 "r")) (Resource.mk 1 "s") (Resource.mk 2 "o") (by decide)

/-- Claim C4 counterexample: with isPreceededBy(main, setup) stored and no
`setup` function defined, running `main` yields ONLY the body output — the
query did return the `setup` resource and its function lookup failed, but
the skipped predecessor call produced no diagnostic whatsoever
(`execute_function` just returns an ignored error code). -/
theorem execute_function_silent_skip_cex :
    execute_function 2 exSetupKb exRoot exMainFn = [Ev.out "hi"]
    ∧ ontology_query_triple (some exSetupKb)
        (ontology_find_resource (some exSetupKb) (some "isPreceededBy"))
        (ontology_find_resource (some exSetupKb) (some "main")) none
        = QueryOut.ok [Resource.mk 3 "setup"]
    ∧ get_fn exRoot "setup" = Ast.null := by
  refine ⟨rfl, rfl, rfl⟩

/-- Claim C4 (amended): when the executor runs a function node, after
reading the signature identifier (and running the proof-of-concept fact
check) and before executing any statement of its body, it queries the
knowledge base for all R with (name isPreceededBy R) and recursively
executes the function named by each R, in query-result order, via get_fn;
a predecessor with no function definition is skipped SILENTLY — get_fn
yields NULL and execute_function on NULL contributes no events and no
diagnostic — and the body is still executed afterwards. -/
theorem execute_function_runs_predecessors
    (fuel : Nat) (kb : DB) (root : Ast) (fsv : String) (fiv : Int) (fsib : Ast)
    (sty : ANT) (ssv : String) (siv : Int) (body : Ast)
    (nm : String) (niv : Int) (nc ns : Ast) (rp : Resource) (l : List Resource)
    (hrel : ontology_find_resource (some kb) (some "printsATestMessageWhenCalled") = some rp)
    (hq : ontology_query_triple (some kb)
            (ontology_find_resource (some kb) (some "isPreceededBy"))
            (ontology_find_resource (some kb) (some nm)) none = QueryOut.ok l) :
    execute_function (fuel+1) kb root
        (Ast.mk ANT.func fsv fiv
          (Ast.mk sty ssv siv (Ast.mk ANT.str nm niv nc ns) body) fsib)
      = poc_trace kb rp (ontology_find_resource (some kb) (some nm))
        ++ l.flatMap (fun r => execute_function fuel kb root (get_fn root r.name))
        ++ exec_chain body
    ∧ execute_function fuel kb root Ast.null = [] := by
  have hrel2 : find_res_scan kb.resources "printsATestMessageWhenCalled" = some rp := hrel
  have hmem : rp ∈ kb.resources := find_res_scan_mem _ _ _ hrel2
  refine ⟨?_, execute_function_null fuel kb root⟩
  simp [execute_function, hrel, hq, hmem]

/-- Witness for `execute_function_runs_predecessors`: a function "f" with
empty body against `exPmKb`; the query resolves nothing, so no predecessor
runs. -/
theorem execute_function_runs_predecessors_witness :
    execute_function 1 exPmKb Ast.null
        (Ast.mk ANT.func "" 0
          (Ast.mk ANT.sig "" 0 (Ast.mk ANT.str "f" 0 Ast.null Ast.null) Ast.null) Ast.null)
      = poc_trace exPmKb (Resource.mk 0 "printsATestMessageWhenCalled")
          (ontology_find_resource (some exPmKb) (some "f"))
        ++ ([] : List Resource).flatMap (fun r => execute_function 0 exPmKb Ast.null (get_fn Ast.null r.name))
        ++ exec_chain Ast.null
    ∧ execute_function 0 exPmKb Ast.null Ast.null = [] :=
  execute_function_runs_predecessors 0 exPmKb Ast.null "" 0 Ast.null ANT.sig "" 0 Ast.null
    "f" 0 Ast.null Ast.null (Resource.mk 0 "printsATestMessageWhenCalled") []
    (by decide) (by decide)

/-- Claim C5 (confirmed): the body print("hi"); println("there");
unknown_fn(); writes exactly "hi" then "there\n" as program output followed
by the unknown-function diagnostic; print/println emit the string argument
(println with a newline) when given exactly one string-kind argument and
otherwise emit one diagnostic and no output; and a call statement after the
unrecognized one still executes (the diagnostic merely prefixes the rest of
the chain). -/
theorem print_scenario_and_arity :
    exec_chain scenarioBody = [Ev.out "hi", Ev.out "there\n", Ev.diag msgUnknownFn]
    ∧ (∀ (sv : String) (iv : Int) (c : Ast),
        lang_builtin_fn_print (Ast.mk ANT.str sv iv c Ast.null) = [Ev.out sv]
        ∧ lang_builtin_fn_println (Ast.mk ANT.str sv iv c Ast.null) = [Ev.out (sv ++ "\n")])
    ∧ (∀ a : Ast, ¬(a.ty = ANT.str ∧ a.sibling = Ast.null) →
        (∃ d, lang_builtin_fn_print a = [Ev.diag d])
        ∧ (∃ d, lang_builtin_fn_println a = [Ev.diag d]))
    ∧ (∀ k : Ast,
        exec_chain (Ast.mk ANT.call "" 0
          (Ast.mk ANT.scope "" 0 (Ast.mk ANT.str "unknown_fn" 0 Ast.null Ast.null) Ast.null) k)
          = Ev.diag msgUnknownFn :: exec_chain k) := by
  refine ⟨rfl, ?_, ?_, ?_⟩
  · intro sv iv c
    exact ⟨by simp [lang_builtin_fn_print], by simp [lang_builtin_fn_println]⟩
  · intro a ha
    cases a with
    | null => exact ⟨⟨msgPrintMissing, rfl⟩, ⟨msgPrintMissing, rfl⟩⟩
    | mk t sv iv c sib =>
      simp only [Ast.ty, Ast.sibling] at ha
      by_cases ht : t = ANT.str
      · have hsib : sib ≠ Ast.null := fun hs => ha ⟨ht, hs⟩
        exact ⟨⟨msgPrintTooMany, by simp [lang_builtin_fn_print, ht, hsib]⟩,
               ⟨msgPrintTooMany, by simp [lang_builtin_fn_println, ht, hsib]⟩⟩
      · exact ⟨⟨msgPrintWrongType, by simp [lang_builtin_fn_print, ht]⟩,
               ⟨msgPrintWrongType, by simp [lang_builtin_fn_println, ht]⟩⟩
  · intro k
    rfl

/-- Witness for `print_scenario_and_arity`: print on a single string node,
and print on a NULL argument list. -/
theorem print_scenario_and_arity_witness :
    lang_builtin_fn_print (Ast.mk ANT.str "hi" 0 Ast.null Ast.null) = [Ev.out "hi"]
    ∧ (∃ d, lang_builtin_fn_print Ast.null = [Ev.diag d]) :=
  ⟨(print_scenario_and_arity.2.1 "hi" 0 Ast.null).1,
   (print_scenario_and_arity.2.2.1 Ast.null (by decide)).1⟩

end Ontc
